import Mathlib

/-!
# Flashare transfer core: a shallow embedding

This file embeds the concurrent file-transfer engine of the Flashare
repository (`internal/server/server.go`) in Lean 4 and settles the spec
claims about it.

Paths and names are modelled as `List Char` (the server only ever
manipulates them bytewise through `path/filepath` and `strings`
helpers).  The shared directory's filesystem is modelled as an
association list from absolute paths to byte contents
(`List (Path × List Nat)`).  Go library functions used by the server
(`filepath.Clean`, `filepath.Join`, `filepath.Base`, `filepath.Ext`,
`strings.HasPrefix`, `strconv.ParseBool`) are translated faithfully
for Unix separators.
-/

set_option autoImplicit false

namespace Flashare

/-- Paths and filenames, as character lists (Go strings, ASCII use). -/
abbrev Path := List Char

/-- Helper for `splitPath`: accumulates the current component (reversed). -/
def splitPathAux : Path → Path → List Path
  | [], cur => [cur.reverse]
  | c :: rest, cur =>
    if c = '/' then cur.reverse :: splitPathAux rest []
    else splitPathAux rest (c :: cur)

/-- Split a path on `'/'` (like `strings.Split(p, "/")`): always nonempty. -/
def splitPath (p : Path) : List Path := splitPathAux p []

/-- One step of `filepath.Clean`'s element processing.  `out` is the list of
kept components, most recent first.  Mirrors Go's lexical algorithm:
empty and `"."` components are dropped; `".."` pops the previous component
when one exists, is kept when the path is relative and nothing can be
popped, and is dropped at the root of an absolute path. -/
def cleanStep (rooted : Bool) (out : List Path) (e : Path) : List Path :=
  if e = [] ∨ e = ['.'] then out
  else if e = ['.', '.'] then
    match out with
    | [] => if rooted then [] else [e]
    | o :: rest => if o = ['.', '.'] then e :: o :: rest else rest
  else e :: out

/-- Model of `filepath.Clean` (Go, Unix separators): lexical path normalization. -/
def goClean (p : Path) : Path :=
  if p = [] then ['.']
  else
    let rooted := p.head? = some '/'
    let comps := ((splitPath p).foldl (cleanStep rooted) []).reverse
    let body := List.intercalate ['/'] comps
    if rooted then '/' :: body
    else if body = [] then ['.'] else body

/-- Model of `filepath.Join(a, b)` (Go, Unix): joins the non-empty parts with a
separator, then `Clean`s the result; `Join("", "")` is `""`. -/
def goJoin (a b : Path) : Path :=
  if a = [] then (if b = [] then [] else goClean b)
  else if b = [] then goClean a
  else goClean (a ++ '/' :: b)

/-- Model of `filepath.Base` (Go, Unix): the last non-empty path component;
`"."` for the empty string, `"/"` for an all-separator path. -/
def goBase (p : Path) : Path :=
  if p = [] then ['.']
  else
    match ((splitPath p).filter (fun c => ¬ c.isEmpty)).getLast? with
    | some c => c
    | none => ['/']

/-- Extension of a single path component: the suffix starting at the last
`'.'`, or `[]` when the component has no dot. -/
def extOfComp (c : Path) : Path :=
  let r := c.reverse
  let i := r.takeWhile (fun ch => ch ≠ '.')
  if i.length = r.length then [] else '.' :: i.reverse

/-- Model of `filepath.Ext` (Go): extension of the final component of the path. -/
def goExt (p : Path) : Path :=
  match (splitPath p).getLast? with
  | some c => extOfComp c
  | none => []

/-- Model of `strings.HasPrefix(s, pre)` (Go). -/
def hasPrefix (s pre : Path) : Bool := pre.isPrefixOf s

/-- The spec's notion of a resolved path lying inside the shared
directory: it is the directory itself, or lives strictly below it. -/
def insideDir (dir p : Path) : Bool :=
  p = dir ∨ hasPrefix p (dir ++ ['/'])

/-! ## Filesystem model

The shared directory's visible state: an association list from absolute
paths to byte contents (bytes as `Nat`).  `os.Stat` existence checks,
`os.Create` (create **or truncate**), writes and `os.Remove` are the
primitive operations the server performs on it. -/

/-- Filesystem state: absolute path → file contents. -/
abbrev Fs := List (Path × List Nat)

/-- Content of the file at `p`, if any. -/
def lookupFs : Fs → Path → Option (List Nat)
  | [], _ => none
  | e :: rest, p => if e.1 = p then some e.2 else lookupFs rest p

/-- Model of `os.Stat` succeeding: an entry exists at `p`. -/
def statExists (fs : Fs) (p : Path) : Bool := (lookupFs fs p).isSome

/-- Write contents `v` at path `p` (create or replace). -/
def fsSet : Fs → Path → List Nat → Fs
  | [], p, v => [(p, v)]
  | e :: rest, p, v => if e.1 = p then (p, v) :: rest else e :: fsSet rest p v

/-- Model of `os.Create`: opens with `O_CREATE|O_TRUNC` — creates the file empty,
truncating any existing file at that path (NOT exclusive creation). -/
def osCreate (fs : Fs) (p : Path) : Fs := fsSet fs p []

/-- Model of `os.Remove`: drop the entry at `p`. -/
def fsRemove : Fs → Path → Fs
  | [], _ => []
  | e :: rest, p => if e.1 = p then fsRemove rest p else e :: fsRemove rest p

/-! ## Download handler (`handleDownload`, server.go lines 186-228) -/

/-- Model of `strconv.ParseBool` (Go). -/
def parseBool (s : Path) : Option Bool :=
  if s = ['1'] ∨ s = ['t'] ∨ s = ['T'] ∨ s = "TRUE".data ∨ s = "true".data ∨ s = "True".data
  then some true
  else if s = ['0'] ∨ s = ['f'] ∨ s = ['F'] ∨ s = "FALSE".data ∨ s = "false".data ∨ s = "False".data
  then some false
  else none

/-- Fiber's `c.QueryBool(key, default)`: `ParseBool` of the query value,
falling back to the default when the parameter is absent or unparsable. -/
def queryBool (q : Option Path) (dflt : Bool) : Bool :=
  match q with
  | none => dflt
  | some s =>
    match parseBool s with
    | some b => b
    | none => dflt

/-- Response of the download handler.  `touched` records the paths handed
to `os.Open` (the filesystem accesses the handler performs). -/
structure DownloadResp where
  status : Nat
  contentEncoding : Option Path
  contentLength : Option Nat
  body : List Nat
  touched : List Path
deriving DecidableEq

/-- Model of `handleDownload`: `filePath := filepath.Join(dir, filepath.Clean(filename))`;
reject with 403 unless `strings.HasPrefix(filePath, dir)`; open the file
(404 on failure); then stream either through the zstd encoder `enc`
(`Content-Encoding: zstd`, no `Content-Length`) or raw with
`Content-Length` equal to the file size.  The query parameter defaults
to compressed (`c.QueryBool("compressed", true)`). -/
def handleDownload (dir : Path) (fs : Fs) (filename : Path) (q : Option Path)
    (enc : List Nat → List Nat) : DownloadResp :=
  let compressed := queryBool q true
  let filePath := goJoin dir (goClean filename)
  if ¬ hasPrefix filePath dir then
    { status := 403, contentEncoding := none, contentLength := none, body := [], touched := [] }
  else
    match lookupFs fs filePath with
    | none => { status := 404, contentEncoding := none, contentLength := none, body := [],
                touched := [filePath] }
    | some content =>
      if compressed then
        { status := 200, contentEncoding := some "zstd".data, contentLength := none,
          body := enc content, touched := [filePath] }
      else
        { status := 200, contentEncoding := none, contentLength := some content.length,
          body := content, touched := [filePath] }

/-! ## Deletion (`handleDelete` lines 344-359, `handleDeleteMultiple` lines 361-419) -/

inductive DeleteStatus where
  | ok
  | accessDenied
  | notFound
deriving DecidableEq

structure DeleteOutcome where
  filename : Path
  status : DeleteStatus
deriving DecidableEq

/-- Result of deleting one name: new filesystem, outcome, and the paths
handed to `os.Remove` (the filesystem accesses performed). -/
structure DeleteStep where
  fs : Fs
  outcome : DeleteOutcome
  touched : List Path
deriving DecidableEq

/-- The per-name deletion logic, shared verbatim by `handleDelete` and the
per-item goroutine of `handleDeleteMultiple`: join-and-clean, prefix
security check (access denied on failure), then `os.Remove` (not-found
outcome when it errors). -/
def deleteOne (dir : Path) (fs : Fs) (name : Path) : DeleteStep :=
  let filePath := goJoin dir (goClean name)
  if ¬ hasPrefix filePath dir then ⟨fs, ⟨name, .accessDenied⟩, []⟩
  else
    match lookupFs fs filePath with
    | none => ⟨fs, ⟨name, .notFound⟩, [filePath]⟩
    | some _ => ⟨fsRemove fs filePath, ⟨name, .ok⟩, [filePath]⟩

/-- Batch deletion body: the per-name steps, threaded through the
filesystem state; collects outcomes in input order and all touched paths. -/
def deleteMany (dir : Path) (fs : Fs) : List Path → Fs × List DeleteOutcome × List Path
  | [] => (fs, [], [])
  | n :: rest =>
    let s := deleteOne dir fs n
    let r := deleteMany dir s.fs rest
    (r.1, s.outcome :: r.2.1, s.touched ++ r.2.2)

inductive BatchDeleteResp where
  | badRequest
  | ok (fs : Fs) (outcomes : List DeleteOutcome) (touched : List Path)
deriving DecidableEq

/-- Model of `handleDeleteMultiple`: a body that fails to parse (modelled as
`none`) is rejected with 400; otherwise every filename in the list —
including when the list is empty — proceeds to per-file deletion. -/
def handleDeleteMultiple (dir : Path) (fs : Fs) (body : Option (List Path)) :
    BatchDeleteResp :=
  match body with
  | none => .badRequest
  | some names =>
    let r := deleteMany dir fs names
    .ok r.1 r.2.1 r.2.2

/-! ## Upload (`saveUploadedFile` lines 296-342, `handleUploadMultiple` lines 245-294) -/

/-- An uploaded stream, as the copy loop observes it: either the full
content arrives, opening the multipart part fails, or the copy fails
after a prefix `written` of the bytes has been written. -/
inductive UploadStream where
  | ok (content : List Nat)
  | openFail
  | copyFail (written : List Nat)
deriving DecidableEq

structure UploadResult where
  success : Bool
  filename : Path
  size : Nat
  error : Path
deriving DecidableEq

/-- Decimal digits of `n` (Go's `fmt.Sprintf("%d", i)`). -/
def natChars (n : Nat) : Path := Nat.toDigits 10 n

/-- The `i`-th collision candidate: `base_i` followed by the extension
(`fmt.Sprintf("%s_%d%s", base, i, ext)`). -/
def candidate (base ext : Path) (i : Nat) : Path := base ++ '_' :: (natChars i ++ ext)

/-- The unbounded `for i := 1; ; i++` existence-probing loop, with fuel
(the Go loop runs until an unused candidate is found; `none` is the
model's out-of-fuel artifact, unreachable with fuel above the number of
directory entries). -/
def resolveLoop (fs : Fs) (base ext : Path) : Nat → Nat → Option Path
  | 0, _ => none
  | fuel + 1, i =>
    let c := candidate base ext i
    if statExists fs c then resolveLoop fs base ext fuel (i + 1) else some c

/-- Name resolution (saveUploadedFile lines 298-312): take the base name
of the desired name, join with the directory; if an entry exists there,
probe `base_1`, `base_2`, … (extension preserved) for the first unused
candidate.  Returns `(destPath, filename)` — the reported `filename` is
recomputed as `filepath.Base(destPath)` only in the collision branch. -/
def resolveDest (fs : Fs) (dir desired : Path) (fuel : Nat) : Option (Path × Path) :=
  let filename := goBase desired
  let destPath := goJoin dir filename
  if statExists fs destPath then
    let ext := goExt destPath
    let base := destPath.take (destPath.length - ext.length)
    match resolveLoop fs base ext fuel 1 with
    | none => none
    | some d => some (d, goBase d)
  else some (destPath, filename)

/-- Model of `saveUploadedFile`: resolve the destination name, open the source
(failure → "Failed to read file"), `os.Create` the destination
(create-or-truncate), copy the bytes verbatim; on a copy failure
`os.Remove` the partial destination before reporting "Failed to save
file".  The success result carries the written byte count. -/
def saveUploadedFile (dir : Path) (fs : Fs) (desired : Path) (stream : UploadStream)
    (fuel : Nat) : Fs × UploadResult :=
  match resolveDest fs dir desired fuel with
  | none => (fs, ⟨false, goBase desired, 0, "resolution fuel exhausted".data⟩)
  | some (destPath, filename) =>
    match stream with
    | .openFail => (fs, ⟨false, filename, 0, "Failed to read file".data⟩)
    | .ok content =>
      let fs1 := osCreate fs destPath
      let fs2 := fsSet fs1 destPath content
      (fs2, ⟨true, filename, content.length, []⟩)
    | .copyFail written =>
      let fs1 := osCreate fs destPath
      let fs2 := fsSet fs1 destPath written
      let fs3 := fsRemove fs2 destPath
      (fs3, ⟨false, filename, 0, "Failed to save file".data⟩)

/-- The per-file saves of one multi-upload request, threaded through the
filesystem state in submission order (the sequential semantics of the
concurrent fan-out; the index-addressed collection itself is modelled by
`runTasks` below). -/
def processUploads (dir : Path) (fuel : Nat) : Fs → List (Path × UploadStream) →
    Fs × List UploadResult
  | fs, [] => (fs, [])
  | fs, f :: rest =>
    let r1 := saveUploadedFile dir fs f.1 f.2 fuel
    let r2 := processUploads dir fuel r1.1 rest
    (r2.1, r1.2 :: r2.2)

structure UploadSummary where
  total : Nat
  successful : Nat
  failed : Nat
  totalSize : Nat
deriving DecidableEq

/-- The summary loop of `handleUploadMultiple` (lines 271-281): count
successes and failures, and sum the sizes of the successful results
only.  Returns `(successful, failed, totalSize)`. -/
def summaryLoop : List UploadResult → Nat × Nat × Nat
  | [] => (0, 0, 0)
  | r :: rest =>
    let acc := summaryLoop rest
    if r.success then (acc.1 + 1, acc.2.1, acc.2.2 + r.size)
    else (acc.1, acc.2.1 + 1, acc.2.2)

/-- The summary record returned for `n` submitted files. -/
def computeSummary (n : Nat) (results : List UploadResult) : UploadSummary :=
  ⟨n, (summaryLoop results).1, (summaryLoop results).2.1, (summaryLoop results).2.2⟩

inductive BatchUploadResp where
  | badRequest (msg : Path)
  | ok (fs : Fs) (results : List UploadResult) (summary : UploadSummary) (allOk : Bool)
deriving DecidableEq

/-- Model of `handleUploadMultiple`: an unparsable multipart form (modelled as
`none`) is rejected with 400 "Invalid form data"; an empty file list
with 400 "No files provided"; otherwise every file is saved and the
response carries the per-file results, the summary (computed only after
all saves), and the top-level `success := failed == 0` flag. -/
def handleUploadMultiple (dir : Path) (fs : Fs) (form : Option (List (Path × UploadStream)))
    (fuel : Nat) : BatchUploadResp :=
  match form with
  | none => .badRequest "Invalid form data".data
  | some files =>
    if files.length = 0 then .badRequest "No files provided".data
    else
      let r := processUploads dir fuel fs files
      .ok r.1 r.2 (computeSummary files.length r.2)
        (decide ((computeSummary files.length r.2).failed = 0))

/-! ## Index-addressed result collection (lines 257-269 and 377-401)

Both batch handlers allocate `results := make([]T, len(inputs))` and have
goroutine `i` write its outcome into `results[i]`; the handler joins on a
`WaitGroup`.  `runTasks` models this: `f i` is the outcome task `i`
computes, and `sched` is the order in which the tasks complete (an
arbitrary permutation of the indices). -/

/-- Slot `i` of the result array receives value `v`. -/
def writeSlot {α : Type} (arr : List (Option α)) (i : Nat) (v : α) : List (Option α) :=
  arr.set i (some v)

/-- Run `n` indexed tasks whose completions arrive in order `sched`,
each writing its own slot of an `n`-slot result array. -/
def runTasks {α : Type} (n : Nat) (f : Nat → α) (sched : List Nat) : List (Option α) :=
  sched.foldl (fun arr j => writeSlot arr j (f j)) (List.replicate n none)

/-! ## Listing (`handleListFiles` lines 135-183) -/

/-- A directory entry as `os.ReadDir` reports it (`entry.Info()` data). -/
structure DirEntry where
  name : Path
  isDir : Bool
  size : Nat
  modified : Int
deriving DecidableEq

/-- The listing's per-file record.  (The `size_human` string — float
formatting — and the extension-derived `type` field are not referenced
by any claim and are omitted.) -/
structure FileInfo where
  name : Path
  size : Nat
  modified : Int
deriving DecidableEq

/-- The entries that survive the filter: not a directory, name not
dot-prefixed (lines 148-151). -/
def survivors (entries : List DirEntry) : List DirEntry :=
  entries.filter (fun e => (!e.isDir) && (e.name.head? != some '.'))

def mkFileInfo (e : DirEntry) : FileInfo := ⟨e.name, e.size, e.modified⟩

/-- The mutex-guarded `files = append(files, fileInfo)` collection: the
goroutines append in completion order `sched` (indices into `l`). -/
def applySched {α : Type} (l : List α) (sched : List Nat) : List α :=
  sched.filterMap (fun i => l[i]?)

/-- The comparison `files[i].Modified > files[j].Modified` used by
`sort.Slice`, as the non-strict "sorted before" relation. -/
def moreRecent (a b : FileInfo) : Prop := b.modified ≤ a.modified

instance : DecidableRel moreRecent :=
  fun a b => inferInstanceAs (Decidable (b.modified ≤ a.modified))

instance : IsTotal FileInfo moreRecent :=
  ⟨fun a b => le_total b.modified a.modified⟩

instance : IsTrans FileInfo moreRecent :=
  ⟨fun _ _ _ hab hbc => le_trans hbc hab⟩

/-- Model of `handleListFiles`: filter the entries, collect their metadata in
goroutine-completion order `sched`, then sort descending by modification
time.  (Go's `sort.Slice` is modelled by insertion sort, which likewise
satisfies the comparison; on the two-element inputs of the tie analysis
Go's algorithm IS insertion sort.) -/
def handleListFiles (entries : List DirEntry) (sched : List Nat) : List FileInfo :=
  List.insertionSort moreRecent (applySched ((survivors entries).map mkFileInfo) sched)

/-! ## Concrete inputs used by the witness theorems -/

/-- A two-file batch whose second stream fails to open. -/
def demoFiles : List (Path × UploadStream) :=
  [("a.txt".data, .ok [1, 2]), ("b.txt".data, .openFail)]

/-- Two plain files with equal modification times. -/
def demoEntries : List DirEntry :=
  [⟨"a".data, false, 1, 5⟩, ⟨"b".data, false, 2, 5⟩]

/-! ## Helper lemmas -/

theorem lookup_fsSet_self (fs : Fs) (p : Path) (v : List Nat) :
    lookupFs (fsSet fs p v) p = some v := by
  induction fs with
  | nil => simp [fsSet, lookupFs]
  | cons e rest ih =>
    by_cases h : e.1 = p
    · simp [fsSet, h, lookupFs]
    · simp [fsSet, h, lookupFs, ih]

theorem lookup_fsSet_ne (fs : Fs) (p q : Path) (v : List Nat) (h : q ≠ p) :
    lookupFs (fsSet fs p v) q = lookupFs fs q := by
  have hpq : ¬ (p = q) := fun hh => h hh.symm
  induction fs with
  | nil => simp [fsSet, lookupFs, hpq]
  | cons e rest ih =>
    by_cases he : e.1 = p
    · subst he
      simp [fsSet, lookupFs, hpq]
    · simp [fsSet, he, lookupFs, ih]

theorem lookup_fsRemove_self (fs : Fs) (p : Path) :
    lookupFs (fsRemove fs p) p = none := by
  induction fs with
  | nil => simp [fsRemove, lookupFs]
  | cons e rest ih =>
    by_cases h : e.1 = p
    · simp [fsRemove, h, ih]
    · simp [fsRemove, h, lookupFs, ih]

theorem lookup_fsRemove_ne (fs : Fs) (p q : Path) (h : q ≠ p) :
    lookupFs (fsRemove fs p) q = lookupFs fs q := by
  have hpq : ¬ (p = q) := fun hh => h hh.symm
  induction fs with
  | nil => simp [fsRemove]
  | cons e rest ih =>
    by_cases he : e.1 = p
    · subst he
      simp [fsRemove, lookupFs, hpq, ih]
    · simp [fsRemove, he, lookupFs, ih]

theorem resolveLoop_fresh (fs : Fs) (base ext : Path) :
    ∀ fuel i d, resolveLoop fs base ext fuel i = some d → statExists fs d = false := by
  intro fuel
  induction fuel with
  | zero => intro i d h; simp [resolveLoop] at h
  | succ n ih =>
    intro i d h
    rw [resolveLoop] at h
    by_cases hc : statExists fs (candidate base ext i) = true
    · rw [if_pos hc] at h
      exact ih _ _ h
    · rw [if_neg hc] at h
      cases h
      simpa using hc

/-- The destination returned by name resolution is unused in the
filesystem state the resolution inspected. -/
theorem resolveDest_fresh (fs : Fs) (dir desired : Path) (fuel : Nat) (d f : Path)
    (h : resolveDest fs dir desired fuel = some (d, f)) :
    statExists fs d = false := by
  simp only [resolveDest] at h
  by_cases h0 : statExists fs (goJoin dir (goBase desired)) = true
  · rw [if_pos h0] at h
    split at h
    · exact Option.noConfusion h
    · rename_i d' hr
      simp only [Option.some.injEq, Prod.mk.injEq] at h
      obtain ⟨h1, -⟩ := h
      subst h1
      exact resolveLoop_fresh fs _ _ fuel 1 _ hr
  · rw [if_neg h0] at h
    simp only [Option.some.injEq, Prod.mk.injEq] at h
    obtain ⟨rfl, -⟩ := h
    simpa using h0

theorem processUploads_length (dir : Path) (fuel : Nat) :
    ∀ (files : List (Path × UploadStream)) (fs : Fs),
      (processUploads dir fuel fs files).2.length = files.length := by
  intro files
  induction files with
  | nil => intro fs; simp [processUploads]
  | cons f rest ih => intro fs; simp [processUploads, ih]

theorem deleteMany_length (dir : Path) :
    ∀ (names : List Path) (fs : Fs),
      (deleteMany dir fs names).2.1.length = names.length := by
  intro names
  induction names with
  | nil => intro fs; simp [deleteMany]
  | cons n rest ih => intro fs; simp [deleteMany, ih]

/-- Characterization of the summary loop: successes, failures and the
sum of the successful sizes. -/
theorem summaryLoop_spec (rs : List UploadResult) :
    (summaryLoop rs).1 = (rs.filter (fun r => r.success)).length ∧
    (summaryLoop rs).2.1 = (rs.filter (fun r => !r.success)).length ∧
    (summaryLoop rs).2.2 = ((rs.filter (fun r => r.success)).map (fun r => r.size)).sum ∧
    (summaryLoop rs).1 + (summaryLoop rs).2.1 = rs.length := by
  induction rs with
  | nil => simp [summaryLoop]
  | cons r rest ih =>
    by_cases h : r.success = true
    · simp [summaryLoop, h, ih.1, ih.2.1, ih.2.2.1]
      omega
    · simp [summaryLoop, h, ih.1, ih.2.1, ih.2.2.1]
      omega

theorem get?_set_self {α : Type} :
    ∀ (l : List α) (i : Nat) (a : α), i < l.length → (l.set i a)[i]? = some a := by
  intro l
  induction l with
  | nil => intro i a h; simp at h
  | cons x xs ih =>
    intro i a h
    cases i with
    | zero => simp
    | succ n => simpa using ih n a (by simpa using h)

theorem get?_set_ne {α : Type} :
    ∀ (l : List α) (i j : Nat) (a : α), j ≠ i → (l.set i a)[j]? = l[j]? := by
  intro l
  induction l with
  | nil => intro i j a h; simp
  | cons x xs ih =>
    intro i j a h
    cases i with
    | zero =>
      cases j with
      | zero => exact absurd rfl h
      | succ m => simp
    | succ n =>
      cases j with
      | zero => simp
      | succ m => simpa using ih n m a (fun hh => h (by omega))

theorem length_foldl_writeSlot {α : Type} (f : Nat → α) :
    ∀ (sched : List Nat) (arr : List (Option α)),
      (sched.foldl (fun a j => writeSlot a j (f j)) arr).length = arr.length := by
  intro sched
  induction sched with
  | nil => intro arr; rfl
  | cons j rest ih =>
    intro arr
    rw [List.foldl_cons, ih]
    simp [writeSlot]

theorem foldl_writeSlot_get {α : Type} (f : Nat → α) :
    ∀ (sched : List Nat) (arr : List (Option α)) (i : Nat), i < arr.length →
      (sched.foldl (fun a j => writeSlot a j (f j)) arr)[i]?
        = if i ∈ sched then some (some (f i)) else arr[i]? := by
  intro sched
  induction sched with
  | nil => intro arr i hi; simp
  | cons j rest ih =>
    intro arr i hi
    rw [List.foldl_cons]
    rw [ih (writeSlot arr j (f j)) i (by simpa [writeSlot] using hi)]
    by_cases hm : i ∈ rest
    · simp [hm]
    · by_cases hij : i = j
      · subst hij
        simp [hm, writeSlot, get?_set_self arr i (some (f i)) hi]
      · simp [hm, hij, writeSlot, get?_set_ne arr j i (some (f j)) hij]

theorem runTasks_length {α : Type} (n : Nat) (f : Nat → α) (sched : List Nat) :
    (runTasks n f sched).length = n := by
  rw [runTasks, length_foldl_writeSlot]
  simp

theorem applySched_range {α : Type} (l : List α) :
    applySched l (List.range l.length) = l := by
  induction l with
  | nil => simp [applySched]
  | cons x xs ih =>
    rw [applySched] at ih ⊢
    rw [List.length_cons, List.range_succ_eq_map, List.filterMap_cons]
    have hf : ((fun i => (x :: xs)[i]?) ∘ Nat.succ) = fun i => xs[i]? := by
      funext i
      simp
    simp only [List.getElem?_cons_zero, List.filterMap_map, hf]
    exact congrArg (x :: ·) ih

theorem applySched_perm {α : Type} (l : List α) (sched : List Nat)
    (h : sched.Perm (List.range l.length)) :
    (applySched l sched).Perm l := by
  have h2 : (applySched l sched).Perm (applySched l (List.range l.length)) :=
    h.filterMap (fun i => l[i]?)
  rw [applySched_range] at h2
  exact h2

end Flashare

open Flashare

/-! ## Claims -/

/-- Claim C1 (code bug).  The spec requires that any name whose
joined-and-normalized path lies outside the shared directory be
rejected with an access-denied outcome before any filesystem call.
The code's check (`server.go` lines 194, 350, 387) is a bare
`strings.HasPrefix(filePath, uploadsDir)` with no separator: with
shared directory `/data/uploads`, the delete/download name
`../uploads2/secret` resolves to `/data/uploads2/secret` — outside the
shared directory — yet passes the prefix check, and both the deletion
handler and the download handler proceed to call `os.Remove`/`os.Open`
on that outside path (`touched` is the list of paths handed to the
filesystem; the outcome is not access-denied). -/
theorem C1_containment_check_bypassed_by_sibling_directory :
    insideDir "/data/uploads".data
        (goJoin "/data/uploads".data (goClean "../uploads2/secret".data)) = false ∧
    goJoin "/data/uploads".data (goClean "../uploads2/secret".data)
      = "/data/uploads2/secret".data ∧
    hasPrefix (goJoin "/data/uploads".data (goClean "../uploads2/secret".data))
        "/data/uploads".data = true ∧
    (deleteOne "/data/uploads".data [] "../uploads2/secret".data).outcome.status
      = DeleteStatus.notFound ∧
    (deleteOne "/data/uploads".data [] "../uploads2/secret".data).touched
      = ["/data/uploads2/secret".data] ∧
    (handleDownload "/data/uploads".data [] "../uploads2/secret".data none id).status = 404 ∧
    (handleDownload "/data/uploads".data [] "../uploads2/secret".data none id).touched
      = ["/data/uploads2/secret".data] := by decide

/-- Claim C2 (counterexample).  The claim says the destination is opened
for exclusive creation, so a save never truncates or overwrites an
existing file.  The code opens with `os.Create` (`O_CREATE|O_TRUNC`,
not exclusive), and `handleUploadMultiple` runs `saveUploadedFile`
concurrently for the files of one request.  Interleaving two saves of
`a.txt` into an empty directory with the code's own steps — both
resolutions first (both return `/up/a.txt`), then task 1's create and
copy of `[1,2,3]`, then task 2's create — shows task 2's `os.Create`
truncating the file task 1 just wrote, and the final copy replacing
its content: an existing file under the destination name is truncated
and overwritten. -/
theorem C2_counterexample_create_truncates_existing_file :
    resolveDest [] "/up".data "a.txt".data 5 = some ("/up/a.txt".data, "a.txt".data) ∧
    statExists (fsSet (osCreate [] "/up/a.txt".data) "/up/a.txt".data [1, 2, 3])
        "/up/a.txt".data = true ∧
    lookupFs (osCreate (fsSet (osCreate [] "/up/a.txt".data) "/up/a.txt".data [1, 2, 3])
        "/up/a.txt".data) "/up/a.txt".data = some [] ∧
    lookupFs (fsSet (osCreate (fsSet (osCreate [] "/up/a.txt".data) "/up/a.txt".data [1, 2, 3])
        "/up/a.txt".data) "/up/a.txt".data [9]) "/up/a.txt".data = some [9] := by decide

/-- Claim C2 (amended).  The destination is opened with create-or-truncate
(`os.Create`), not exclusive creation; exclusivity comes only from the
existence check done during name resolution.  Hence within one
sequential execution of `saveUploadedFile` the resolved destination is
unused and no file that already exists is ever truncated or
overwritten (concurrent same-name saves can overwrite — the spec's
known §9 race, exhibited by the counterexample). -/
theorem C2_sequential_save_never_overwrites (dir : Path) (fs : Fs) (desired : Path)
    (stream : UploadStream) (fuel : Nat) (d f : Path)
    (h : resolveDest fs dir desired fuel = some (d, f)) :
    statExists fs d = false ∧
    ∀ p c, lookupFs fs p = some c →
      lookupFs (saveUploadedFile dir fs desired stream fuel).1 p = some c := by
  have hfresh := resolveDest_fresh fs dir desired fuel d f h
  refine ⟨hfresh, ?_⟩
  intro p c hpc
  have hpd : p ≠ d := by
    intro he
    subst he
    rw [statExists, hpc] at hfresh
    simp at hfresh
  cases stream with
  | ok content =>
    simp only [saveUploadedFile, h]
    rw [lookup_fsSet_ne _ _ _ _ hpd, osCreate, lookup_fsSet_ne _ _ _ _ hpd]
    exact hpc
  | openFail =>
    simp only [saveUploadedFile, h]
    exact hpc
  | copyFail written =>
    simp only [saveUploadedFile, h]
    rw [lookup_fsRemove_ne _ _ _ hpd, lookup_fsSet_ne _ _ _ _ hpd, osCreate,
      lookup_fsSet_ne _ _ _ _ hpd]
    exact hpc

/-- Claim C2 (witness): the amended theorem applied to a directory holding
`/up/b`, saving `a.txt`: the pre-existing entry keeps its content. -/
theorem C2_sequential_save_never_overwrites_witness :
    lookupFs (saveUploadedFile "/up".data [("/up/b".data, [5])] "a.txt".data
        (UploadStream.ok [1]) 3).1 "/up/b".data = some [5] :=
  (C2_sequential_save_never_overwrites "/up".data [("/up/b".data, [5])] "a.txt".data
      (UploadStream.ok [1]) 3 "/up/a.txt".data "a.txt".data (by decide)).2
    "/up/b".data [5] (by decide)

/-- Claim C3 (confirmed).  Uploading content `C` stores it verbatim
(`saveUploadedFile` reports success with the resolved name), and
downloading that name uncompressed returns exactly `C` with
`Content-Length = |C|`, while downloading it compressed returns the
encoder applied to exactly `C` — so any decoder inverse to the encoder
(the zstd library contract, hypothesis `hinv`) recovers `C`.
`hback`/`hpre` state that the stored filename resolves back to the
destination path and passes the prefix check (true of every ordinary
filename; discharged concretely in the witness). -/
theorem C3_upload_download_round_trip (dir : Path) (fs : Fs) (name : Path)
    (C : List Nat) (fuel : Nat) (d f : Path) (enc dec : List Nat → List Nat)
    (hres : resolveDest fs dir name fuel = some (d, f))
    (hback : goJoin dir (goClean f) = d)
    (hpre : hasPrefix d dir = true)
    (hinv : ∀ b, dec (enc b) = b) :
    (saveUploadedFile dir fs name (.ok C) fuel).2.success = true ∧
    (saveUploadedFile dir fs name (.ok C) fuel).2.filename = f ∧
    (handleDownload dir (saveUploadedFile dir fs name (.ok C) fuel).1 f
        (some "false".data) enc).body = C ∧
    (handleDownload dir (saveUploadedFile dir fs name (.ok C) fuel).1 f
        (some "false".data) enc).contentLength = some C.length ∧
    dec ((handleDownload dir (saveUploadedFile dir fs name (.ok C) fuel).1 f
        (some "true".data) enc).body) = C := by
  have hsave : saveUploadedFile dir fs name (.ok C) fuel
      = (fsSet (osCreate fs d) d C, ⟨true, f, C.length, []⟩) := by
    simp only [saveUploadedFile, hres]
  have hlook : lookupFs (fsSet (osCreate fs d) d C) d = some C := lookup_fsSet_self _ _ _
  have hqf : queryBool (some "false".data) true = false := by decide
  have hqt : queryBool (some "true".data) true = true := by decide
  rw [hsave]
  refine ⟨rfl, rfl, ?_, ?_, ?_⟩
  · simp [handleDownload, hqf, hback, hpre, hlook]
  · simp [handleDownload, hqf, hback, hpre, hlook]
  · simp [handleDownload, hqt, hback, hpre, hlook, hinv C]

/-- Claim C3 (witness): round trip of `[1,2,3]` through `a.txt` in an
empty `/up`, with the length-preserving codec `b ↦ 0 :: b` / `drop 1`. -/
theorem C3_upload_download_round_trip_witness :
    (handleDownload "/up".data (saveUploadedFile "/up".data [] "a.txt".data
        (UploadStream.ok [1, 2, 3]) 3).1 "a.txt".data (some "false".data)
        (fun b => 0 :: b)).body = [1, 2, 3] ∧
    List.drop 1 ((handleDownload "/up".data (saveUploadedFile "/up".data [] "a.txt".data
        (UploadStream.ok [1, 2, 3]) 3).1 "a.txt".data (some "true".data)
        (fun b => 0 :: b)).body) = [1, 2, 3] :=
  ⟨(C3_upload_download_round_trip "/up".data [] "a.txt".data [1, 2, 3] 3 "/up/a.txt".data
      "a.txt".data (fun b => 0 :: b) (fun b => b.drop 1) (by decide) (by decide) (by decide)
      (fun _ => rfl)).2.2.1,
   (C3_upload_download_round_trip "/up".data [] "a.txt".data [1, 2, 3] 3 "/up/a.txt".data
      "a.txt".data (fun b => 0 :: b) (fun b => b.drop 1) (by decide) (by decide) (by decide)
      (fun _ => rfl)).2.2.2.2⟩

/-- Claim C4 (confirmed).  Name resolution: (1) it depends on the desired
name only through its base name (every path component stripped);
(2) `filepath.Base` strips the components of a traversal-style name;
(3) when no entry exists under the joined base name it is returned
unchanged; (4) any name it returns is unused (candidates are probed
for existence in order); (5) three strictly sequential uploads of
`a.txt` into an empty directory are stored as `a.txt`, `a_1.txt`,
`a_2.txt`. -/
theorem C4_name_resolution (fs : Fs) (dir : Path) (fuel : Nat) :
    (∀ d1 d2, goBase d1 = goBase d2 →
      resolveDest fs dir d1 fuel = resolveDest fs dir d2 fuel) ∧
    goBase "evil/../sub/a.txt".data = "a.txt".data ∧
    (∀ desired, statExists fs (goJoin dir (goBase desired)) = false →
      resolveDest fs dir desired fuel = some (goJoin dir (goBase desired), goBase desired)) ∧
    (∀ desired d f, resolveDest fs dir desired fuel = some (d, f) →
      statExists fs d = false) ∧
    ((saveUploadedFile "/up".data [] "a.txt".data (.ok [1]) 9).2.filename = "a.txt".data ∧
     (saveUploadedFile "/up".data (saveUploadedFile "/up".data [] "a.txt".data
        (.ok [1]) 9).1 "a.txt".data (.ok [2]) 9).2.filename = "a_1.txt".data ∧
     (saveUploadedFile "/up".data (saveUploadedFile "/up".data (saveUploadedFile "/up".data
        [] "a.txt".data (.ok [1]) 9).1 "a.txt".data (.ok [2]) 9).1 "a.txt".data
        (.ok [3]) 9).2.filename = "a_2.txt".data) := by
  refine ⟨?_, by decide, ?_, ?_, by decide⟩
  · intro d1 d2 h
    simp only [resolveDest, h]
  · intro desired h3
    simp [resolveDest, h3]
  · intro desired d f h4
    exact resolveDest_fresh fs dir desired fuel d f h4

/-- Claim C4 (witness): the base-name congruence and the unchanged-name
case at concrete inputs. -/
theorem C4_name_resolution_witness :
    resolveDest [] "/up".data "evil/a.txt".data 3 = resolveDest [] "/up".data "a.txt".data 3 ∧
    resolveDest [] "/up".data "b.txt".data 3
      = some (goJoin "/up".data (goBase "b.txt".data), goBase "b.txt".data) :=
  ⟨(C4_name_resolution [] "/up".data 3).1 "evil/a.txt".data "a.txt".data (by decide),
   (C4_name_resolution [] "/up".data 3).2.2.1 "b.txt".data (by decide)⟩

/-- Claim C5 (confirmed).  For a structurally valid multi-upload of `N`
files, the response's summary is a pure fold over the full list of
per-file outcomes (it is a function of the completed result list):
`total = N`, `failed = K` (the number of unsuccessful outcomes),
`successful = N - K`, and `totalSize` is the sum of the sizes of the
successful outcomes only. -/
theorem C5_summary_aggregation (dir : Path) (fs : Fs) (fuel : Nat)
    (files : List (Path × UploadStream)) (h : files.length ≠ 0) :
    handleUploadMultiple dir fs (some files) fuel
      = .ok (processUploads dir fuel fs files).1 (processUploads dir fuel fs files).2
          (computeSummary files.length (processUploads dir fuel fs files).2)
          (decide ((computeSummary files.length
            (processUploads dir fuel fs files).2).failed = 0)) ∧
    (processUploads dir fuel fs files).2.length = files.length ∧
    (computeSummary files.length (processUploads dir fuel fs files).2).total
      = files.length ∧
    (computeSummary files.length (processUploads dir fuel fs files).2).failed
      = ((processUploads dir fuel fs files).2.filter (fun r => !r.success)).length ∧
    (computeSummary files.length (processUploads dir fuel fs files).2).successful
      = files.length
        - (computeSummary files.length (processUploads dir fuel fs files).2).failed ∧
    (computeSummary files.length (processUploads dir fuel fs files).2).totalSize
      = (((processUploads dir fuel fs files).2.filter (fun r => r.success)).map
          (fun r => r.size)).sum := by
  have hlen := processUploads_length dir fuel files fs
  have hs := summaryLoop_spec (processUploads dir fuel fs files).2
  refine ⟨?_, hlen, rfl, hs.2.1, ?_, hs.2.2.1⟩
  · simp only [handleUploadMultiple]
    rw [if_neg h]
  · have hsum : (summaryLoop (processUploads dir fuel fs files).2).1
        + (summaryLoop (processUploads dir fuel fs files).2).2.1 = files.length := by
      rw [hs.2.2.2, hlen]
    simp only [computeSummary]
    omega

/-- Claim C5 (witness): the aggregation at a two-file batch with one
failure. -/
theorem C5_summary_aggregation_witness :
    (computeSummary demoFiles.length (processUploads "/up".data 3 [] demoFiles).2).total
        = demoFiles.length ∧
    (computeSummary demoFiles.length (processUploads "/up".data 3 [] demoFiles).2).successful
        = demoFiles.length
          - (computeSummary demoFiles.length
              (processUploads "/up".data 3 [] demoFiles).2).failed :=
  ⟨(C5_summary_aggregation "/up".data [] 3 demoFiles (by decide)).2.2.1,
   (C5_summary_aggregation "/up".data [] 3 demoFiles (by decide)).2.2.2.2.1⟩

/-- Claim C6 (confirmed).  Both batch handlers allocate a result sequence
of the input's length and have task `i` write its outcome into slot `i`
(`results[idx] = ...`), joining before responding.  `runTasks` embeds
this collection discipline with `f i` the outcome task `i` computes and
`sched` the completion order.  For every completion order that is a
permutation of the task indices, slot `i` of the collected sequence is
exactly task `i`'s outcome — order matches submission, not
completion. -/
theorem C6_outcome_order_matches_submission {α : Type} (n : Nat) (f : Nat → α)
    (sched : List Nat) (h : sched.Perm (List.range n)) :
    runTasks n f sched = (List.range n).map (fun i => some (f i)) := by
  apply List.ext_getElem?
  intro i
  by_cases hi : i < n
  · have hmem : i ∈ sched := h.mem_iff.2 (List.mem_range.2 hi)
    rw [runTasks, foldl_writeSlot_get f sched (List.replicate n none) i (by simpa using hi)]
    rw [if_pos hmem]
    rw [List.getElem?_map]
    simp [List.getElem?_range hi]
  · have h1 : (runTasks n f sched)[i]? = none := by
      apply List.getElem?_eq_none
      rw [runTasks_length]
      omega
    have h2 : ((List.range n).map (fun j => some (f j)))[i]? = none := by
      apply List.getElem?_eq_none
      simpa using hi
    rw [h1, h2]

/-- Claim C6 (witness): three upload tasks completing in order 2, 0, 1
still fill the result slots in submission order. -/
theorem C6_outcome_order_matches_submission_witness :
    runTasks 3 (fun i => (saveUploadedFile "/up".data [] "a.txt".data
        (UploadStream.ok [i]) 3).2) [2, 0, 1]
      = (List.range 3).map (fun i => some ((saveUploadedFile "/up".data [] "a.txt".data
          (UploadStream.ok [i]) 3).2)) :=
  C6_outcome_order_matches_submission 3
    (fun i => (saveUploadedFile "/up".data [] "a.txt".data (UploadStream.ok [i]) 3).2)
    [2, 0, 1] (by decide)

/-- Claim C7 (confirmed).  When the copy of an uploaded stream fails after
a prefix was written, `saveUploadedFile` removes the partial
destination file before reporting the failure outcome: the resulting
directory state is unchanged at every path — no truncated file remains
visible under the final name. -/
theorem C7_copy_failure_removes_partial_file (dir : Path) (fs : Fs) (name : Path)
    (written : List Nat) (fuel : Nat) (d f : Path)
    (h : resolveDest fs dir name fuel = some (d, f)) :
    (saveUploadedFile dir fs name (.copyFail written) fuel).2.success = false ∧
    (saveUploadedFile dir fs name (.copyFail written) fuel).2.error
      = "Failed to save file".data ∧
    ∀ p, lookupFs (saveUploadedFile dir fs name (.copyFail written) fuel).1 p
      = lookupFs fs p := by
  have hfresh := resolveDest_fresh fs dir name fuel d f h
  have hsave : saveUploadedFile dir fs name (.copyFail written) fuel
      = (fsRemove (fsSet (osCreate fs d) d written) d,
         ⟨false, f, 0, "Failed to save file".data⟩) := by
    simp only [saveUploadedFile, h]
  rw [hsave]
  refine ⟨rfl, rfl, ?_⟩
  intro p
  by_cases hpd : p = d
  · subst hpd
    rw [lookup_fsRemove_self]
    rw [statExists] at hfresh
    cases hl : lookupFs fs p with
    | none => rfl
    | some c => rw [hl] at hfresh; simp at hfresh
  · rw [lookup_fsRemove_ne _ _ _ hpd, lookup_fsSet_ne _ _ _ _ hpd, osCreate,
      lookup_fsSet_ne _ _ _ _ hpd]

/-- Claim C7 (witness): a failing copy of `a.txt` into a directory holding
`/up/b` leaves the directory exactly as it was. -/
theorem C7_copy_failure_removes_partial_file_witness :
    lookupFs (saveUploadedFile "/up".data [("/up/b".data, [5])] "a.txt".data
        (UploadStream.copyFail [1, 2]) 3).1 "/up/a.txt".data
      = lookupFs [("/up/b".data, [5])] "/up/a.txt".data ∧
    lookupFs (saveUploadedFile "/up".data [("/up/b".data, [5])] "a.txt".data
        (UploadStream.copyFail [1, 2]) 3).1 "/up/b".data
      = lookupFs [("/up/b".data, [5])] "/up/b".data :=
  ⟨(C7_copy_failure_removes_partial_file "/up".data [("/up/b".data, [5])] "a.txt".data
      [1, 2] 3 "/up/a.txt".data "a.txt".data (by decide)).2.2 "/up/a.txt".data,
   (C7_copy_failure_removes_partial_file "/up".data [("/up/b".data, [5])] "a.txt".data
      [1, 2] 3 "/up/a.txt".data "a.txt".data (by decide)).2.2 "/up/b".data⟩

/-- Claim C8 (counterexample).  The claim asserts that two listing calls
over the same unchanged directory return the same ordering.  The
metadata goroutines append to the shared slice in completion order,
which the scheduler does not fix, and the sort is not stable: over the
same two-entry directory with equal modification times, completion
order `[0,1]` and completion order `[1,0]` produce different
orderings. -/
theorem C8_counterexample_tie_order_differs_across_calls :
    ([0, 1] : List Nat).Perm (List.range ((survivors demoEntries).map mkFileInfo).length) ∧
    ([1, 0] : List Nat).Perm (List.range ((survivors demoEntries).map mkFileInfo).length) ∧
    handleListFiles demoEntries [0, 1] ≠ handleListFiles demoEntries [1, 0] := by decide

/-- Claim C8 (amended).  Every listing is sorted in descending order of
modification time and contains exactly the metadata of the surviving
entries (for any completion order of the metadata tasks); but the
ordering among entries with equal modification times depends on the
nondeterministic completion order, so it is not deterministic across
calls (see the counterexample). -/
theorem C8_listing_sorted_descending (entries : List DirEntry) (sched : List Nat)
    (h : sched.Perm (List.range ((survivors entries).map mkFileInfo).length)) :
    (handleListFiles entries sched).Sorted moreRecent ∧
    (handleListFiles entries sched).Perm ((survivors entries).map mkFileInfo) := by
  constructor
  · exact List.sorted_insertionSort moreRecent _
  · exact (List.perm_insertionSort moreRecent _).trans (applySched_perm _ sched h)

/-- Claim C8 (witness): the amended theorem at the two-entry directory. -/
theorem C8_listing_sorted_descending_witness :
    (handleListFiles demoEntries [1, 0]).Sorted moreRecent ∧
    (handleListFiles demoEntries [1, 0]).Perm ((survivors demoEntries).map mkFileInfo) :=
  C8_listing_sorted_descending demoEntries [1, 0] (by decide)

/-- Claim C9 (counterexample).  The claim says an empty file/filename list
fails the whole request for both batch upload and batch delete.  The
delete handler never checks for emptiness: a parsed body with an empty
`filenames` list is accepted and answered with an empty outcome list (a
success-shaped response), not rejected. -/
theorem C9_counterexample_empty_delete_list_accepted :
    handleDeleteMultiple "/up".data [("/up/a".data, [1])] (some [])
      = BatchDeleteResp.ok [("/up/a".data, [1])] [] [] ∧
    handleDeleteMultiple "/up".data [("/up/a".data, [1])] (some [])
      ≠ BatchDeleteResp.badRequest := by decide

/-- Claim C9 (amended).  Batch upload fails the whole request, before any
per-file work, exactly on an unparsable form or an empty file list;
batch delete fails the whole request exactly on an unparsable body —
an empty filename list is structurally valid there and yields an empty
outcome list.  Every structurally valid batch proceeds to per-file
processing and returns one outcome per input. -/
theorem C9_structural_validation (dir : Path) (fs : Fs) (fuel : Nat) :
    handleUploadMultiple dir fs none fuel = .badRequest "Invalid form data".data ∧
    handleUploadMultiple dir fs (some []) fuel = .badRequest "No files provided".data ∧
    (∀ files : List (Path × UploadStream), files.length ≠ 0 →
      handleUploadMultiple dir fs (some files) fuel
        = .ok (processUploads dir fuel fs files).1 (processUploads dir fuel fs files).2
            (computeSummary files.length (processUploads dir fuel fs files).2)
            (decide ((computeSummary files.length
              (processUploads dir fuel fs files).2).failed = 0)) ∧
      (processUploads dir fuel fs files).2.length = files.length) ∧
    handleDeleteMultiple dir fs none = .badRequest ∧
    (∀ names : List Path,
      handleDeleteMultiple dir fs (some names)
        = .ok (deleteMany dir fs names).1 (deleteMany dir fs names).2.1
            (deleteMany dir fs names).2.2 ∧
      (deleteMany dir fs names).2.1.length = names.length) := by
  refine ⟨rfl, rfl, ?_, rfl, ?_⟩
  · intro files hf
    constructor
    · simp only [handleUploadMultiple]
      rw [if_neg hf]
    · exact processUploads_length dir fuel files fs
  · intro names
    exact ⟨rfl, deleteMany_length dir names fs⟩

/-- Claim C9 (witness): the amended theorem's batch clauses at concrete
batches. -/
theorem C9_structural_validation_witness :
    (processUploads "/up".data 3 [] demoFiles).2.length = demoFiles.length ∧
    (deleteMany "/up".data [] ["x".data]).2.1.length = 1 :=
  ⟨((C9_structural_validation "/up".data [] 3).2.2.1 demoFiles (by decide)).2,
   ((C9_structural_validation "/up".data [] 3).2.2.2.2 ["x".data]).2⟩

/-- Claim C10 (confirmed).  A download request that omits the `compressed`
query parameter gets exactly the response an explicit `compressed=true`
gets (and so does an unparsable value like `banana`): the
zstd-compressed stream with `Content-Encoding: zstd` and no
`Content-Length`.  Only an explicit false value yields the raw stream
with `Content-Length` equal to the file size and no
`Content-Encoding`. -/
theorem C10_compression_default_enabled (dir : Path) (fs : Fs) (name : Path)
    (C : List Nat) (enc : List Nat → List Nat)
    (hpre : hasPrefix (goJoin dir (goClean name)) dir = true)
    (hfound : lookupFs fs (goJoin dir (goClean name)) = some C) :
    handleDownload dir fs name none enc = handleDownload dir fs name (some "true".data) enc ∧
    handleDownload dir fs name (some "banana".data) enc = handleDownload dir fs name none enc ∧
    (handleDownload dir fs name none enc).contentEncoding = some "zstd".data ∧
    (handleDownload dir fs name none enc).contentLength = none ∧
    (handleDownload dir fs name none enc).body = enc C ∧
    (handleDownload dir fs name (some "false".data) enc).contentEncoding = none ∧
    (handleDownload dir fs name (some "false".data) enc).contentLength = some C.length ∧
    (handleDownload dir fs name (some "false".data) enc).body = C := by
  have hqn : queryBool none true = true := rfl
  have hqt : queryBool (some "true".data) true = true := by decide
  have hqb : queryBool (some "banana".data) true = true := by decide
  have hqf : queryBool (some "false".data) true = false := by decide
  refine ⟨?_, ?_, ?_, ?_, ?_, ?_, ?_, ?_⟩ <;>
    simp [handleDownload, hqn, hqt, hqb, hqf, hpre, hfound]

/-- Claim C10 (witness): the default at a concrete stored file. -/
theorem C10_compression_default_enabled_witness :
    handleDownload "/up".data [("/up/a.txt".data, [7, 8])] "a.txt".data none (fun b => 0 :: b)
      = handleDownload "/up".data [("/up/a.txt".data, [7, 8])] "a.txt".data
          (some "true".data) (fun b => 0 :: b) ∧
    (handleDownload "/up".data [("/up/a.txt".data, [7, 8])] "a.txt".data
        (some "false".data) (fun b => 0 :: b)).contentLength = some 2 :=
  ⟨(C10_compression_default_enabled "/up".data [("/up/a.txt".data, [7, 8])] "a.txt".data
      [7, 8] (fun b => 0 :: b) (by decide) (by decide)).1,
   (C10_compression_default_enabled "/up".data [("/up/a.txt".data, [7, 8])] "a.txt".data
      [7, 8] (fun b => 0 :: b) (by decide) (by decide)).2.2.2.2.2.2.1⟩

